import Mathlib

/-!
Verification of the staggered-coupling and adaptive-refinement control logic of
the IFEM-OpenFrac drivers (SIMFractureQstatic.h, SIMFractureDynamics.h).

The embedding is shallow: the two physics subsystems (the solid solver S1 and
the phase-field solver S2) are external collaborators, so every call the driver
makes into them is modelled by an environment record carrying that call's
observable outcome (a success flag, a returned norm, a returned vector, ...).
C++ doubles are modelled by exact rationals where no square root occurs and by
real numbers in the mesh-adaptation code (which uses sqrt); machine ints are
modelled by unbounded integers, faithful to the driver code which never
overflows them.
-/

set_option maxHeartbeats 1000000

/-- The IFEM convergence-status enumeration SIM::ConvStatus, restricted to the
four values this driver produces or inspects.  The numeric severity order of
the C++ enum (FAILURE < DIVERGED < ... < OK < CONVERGED) is exposed through
the toIdx function below. -/
inductive SIM.ConvStatus
  | failure
  | diverged
  | ok
  | converged
deriving DecidableEq, Repr

/-- Numeric value of a status in the C++ enum order, used for the
comparisons with >= SIM::OK and <= SIM::DIVERGED in the drivers. -/
def SIM.ConvStatus.toIdx : SIM.ConvStatus → ℕ
  | .failure => 0
  | .diverged => 1
  | .ok => 2
  | .converged => 3

/-- Observable outcomes of the subsystem calls made by
SIMFractureQstatic::checkConvergence, in source order: the two incoming
statuses, the success flags of each call whose return value the driver can
inspect, and the norms the driver reads back.  s1SetModeOk records the result
of the call this->S1.setMode(SIM::RHS_ONLY), whose return value the source
discards (line 91); it is kept in the record so that theorems can speak about
its irrelevance. -/
structure CheckCalls where
  status1 : SIM.ConvStatus
  status2 : SIM.ConvStatus
  s1SetModeOk : Bool
  s1AssembleOk : Bool
  s1ExtractOk : Bool
  s2SetModeOk : Bool
  s2AssembleOk : Bool
  s2ExtractOk : Bool
  rNorm1 : ℚ
  rNorm2 : ℚ
  eNorm1 : ℚ
  eNorm2 : ℚ
deriving DecidableEq, Repr

/-- The energy-trace member variables E0, Ec, Ep of SIMFractureQstatic,
in declaration order. -/
structure EnergyTrace where
  E0 : ℚ
  Ec : ℚ
  Ep : ℚ
deriving DecidableEq, Repr

/-- The energy-trace update on lines 120-127 of SIMFractureQstatic.h: on
cycle 0 the combined energy becomes E0; on later cycles Ep takes the value
of Ec (or of E0 on cycle 1) and Ec becomes the combined energy. -/
def SIMFractureQstatic.traceUpdate (iter : ℤ) (eConv : ℚ)
    (tr : EnergyTrace) : EnergyTrace :=
  if iter = 0 then ⟨eConv, tr.Ec, tr.Ep⟩
  else ⟨tr.E0, eConv, if 1 < iter then tr.Ec else tr.E0⟩

/-- SIMFractureQstatic::checkConvergence (SIMFractureQstatic.h lines 81-140).
Returns the convergence status together with the updated energy trace.
The incoming-status screens, the early FAILURE returns on a failed subsystem
call, the energy-trace update, and the final tolerance/cycle decision follow
the source line by line.  The result of S1.setMode is discarded exactly as in
the source; the result of S2.setMode is checked. -/
def SIMFractureQstatic.checkConvergence (cycleTol : ℚ) (maxCycle : ℤ)
    (iter : ℤ) (c : CheckCalls) (tr : EnergyTrace) :
    SIM.ConvStatus × EnergyTrace :=
  if c.status1 = SIM.ConvStatus.failure ∨ c.status2 = SIM.ConvStatus.failure then
    (SIM.ConvStatus.failure, tr)
  else if c.status1 = SIM.ConvStatus.diverged ∨ c.status2 = SIM.ConvStatus.diverged then
    (SIM.ConvStatus.diverged, tr)
  else if c.s1AssembleOk = false then
    (SIM.ConvStatus.failure, tr)
  else if c.s1ExtractOk = false then
    (SIM.ConvStatus.failure, tr)
  else if c.s2SetModeOk = false then
    (SIM.ConvStatus.failure, tr)
  else if c.s2AssembleOk = false then
    (SIM.ConvStatus.failure, tr)
  else if c.s2ExtractOk = false then
    (SIM.ConvStatus.failure, tr)
  else
    if c.rNorm1 + c.rNorm2 < |cycleTol| then
      (SIM.ConvStatus.converged,
       SIMFractureQstatic.traceUpdate iter (c.eNorm1 + c.eNorm2) tr)
    else if iter < maxCycle then
      (SIM.ConvStatus.ok,
       SIMFractureQstatic.traceUpdate iter (c.eNorm1 + c.eNorm2) tr)
    else if cycleTol < 0 then
      (SIM.ConvStatus.converged,
       SIMFractureQstatic.traceUpdate iter (c.eNorm1 + c.eNorm2) tr)
    else
      (SIM.ConvStatus.diverged,
       SIMFractureQstatic.traceUpdate iter (c.eNorm1 + c.eNorm2) tr)

/-- The observable shape of a SIMFractureQstatic::solveStep run: the driver
either returns false before reaching the parent solve, returns the value of
the step-1 bootstrap convergence check, or delegates to
SIMCoupledSI::solveStep with a specific solve-order flag. -/
inductive QstaticOutcome
  | earlyFalse
  | bootReturn (ok : Bool)
  | parentSolve (firstS1 : Bool)
deriving DecidableEq, Repr

/-- Observable outcomes of the subsystem calls made by
SIMFractureQstatic::solveStep before it delegates to the parent class. -/
structure QstaticEnv where
  hasICphasefield : Bool
  haveCrackPressure : Bool
  s2PostSolveOk : Bool
  s1SolveStepOk : Bool
  s2SolveStepOk : Bool
deriving DecidableEq, Repr

/-- SIMFractureQstatic::solveStep (SIMFractureQstatic.h lines 52-78).
On step 1 with a prescribed initial phase field it post-solves S2, solves S1
on a copied time context and returns checkConvergence(tp,OK,CONVERGED) >= OK;
on step 1 with a crack pressure it first solves the phase field; on every
other step it overwrites the caller's firstS1 flag with the negation of
S2.hasIC("phasefield") before delegating to the parent. -/
def SIMFractureQstatic.solveStep (cycleTol : ℚ) (maxCycle : ℤ) (iter : ℤ)
    (env : QstaticEnv) (c : CheckCalls) (tr : EnergyTrace)
    (step : ℤ) (firstS1 : Bool) : QstaticOutcome :=
  if step = 1 then
    if env.hasICphasefield then
      if env.s2PostSolveOk = false then QstaticOutcome.earlyFalse
      else if env.s1SolveStepOk = false then QstaticOutcome.earlyFalse
      else
        QstaticOutcome.bootReturn
          (decide (SIM.ConvStatus.ok.toIdx ≤
            (SIMFractureQstatic.checkConvergence cycleTol maxCycle iter
              ⟨SIM.ConvStatus.ok, SIM.ConvStatus.converged,
               c.s1SetModeOk, c.s1AssembleOk, c.s1ExtractOk,
               c.s2SetModeOk, c.s2AssembleOk, c.s2ExtractOk,
               c.rNorm1, c.rNorm2, c.eNorm1, c.eNorm2⟩ tr).1.toIdx))
    else if env.haveCrackPressure then
      if env.s2SolveStepOk = false then QstaticOutcome.earlyFalse
      else QstaticOutcome.parentSolve firstS1
    else QstaticOutcome.parentSolve firstS1
  else
    QstaticOutcome.parentSolve (!env.hasICphasefield)

/-- The stop-criterion update performed by SIMFracture::saveStep
(SIMFractureDynamics.h lines 118-123): the doStop member is reassigned only
when the step index exceeds 1, a reaction component irfStop is configured
(positive) and the reaction vector RF has at least irfStop components; then it
becomes the comparison of the 1-based component RF(irfStop) in magnitude
against stopVal.  Otherwise doStop keeps its previous value. -/
def SIMFracture.saveStepDoStop (step : ℤ) (irfStop : ℕ) (stopVal : ℚ)
    (RF : List ℚ) (doStop : Bool) : Bool :=
  if 1 < step ∧ 0 < irfStop ∧ irfStop ≤ RF.length then
    decide (|RF.getD (irfStop - 1) 0| < stopVal)
  else doStop

/-- SIMFracture::advanceStep (SIMFractureDynamics.h lines 63-66): delegates to
the coupled driver and additionally requests termination when the stop flag
is set. -/
def SIMFracture.advanceStep (parentOk doStop : Bool) : Bool :=
  parentOk && !doStop

/-- The subsystem calls issued by SIMFractureMiehe::solveStep, one
constructor per call site.  s1SolveIteration carries the phase tag passed to
S1.solveIteration; s1Extract, s1Scalar, s2Extract, s2Scalar carry the norm
value the call delivered. -/
inductive MEvent
  | s2Post
  | s1SolveStep
  | s2SolveStep
  | s1SolveIteration (tag : ℤ)
  | s1UpdateSED
  | s1Post
  | s1SetModeRHS
  | s1Assemble
  | s1Extract (r : ℚ)
  | s1Scalar (e : ℚ)
  | s2SetModeIF
  | s2Assemble
  | s2Extract (r : ℚ)
  | s2Scalar (e : ℚ)
deriving DecidableEq, Repr

/-- True exactly for the corrector solves of the elasticity field: the
S1.solveIteration calls with phase tag 2 or 3 (the call that closes the first
Field-B/Field-A pair and the calls closing the remaining pairs). -/
def MEvent.isCorrector : MEvent → Bool
  | .s1SolveIteration t => t == 2 || t == 3
  | _ => false

/-- True exactly for the predictor solve: the S1.solveIteration call with
phase tag 1. -/
def MEvent.isPredictor : MEvent → Bool
  | .s1SolveIteration t => t == 1
  | _ => false

/-- The event sequence of n (Field B solve, Field A corrector solve) pairs. -/
def MEvent.pairTrace : ℕ → List MEvent
  | 0 => []
  | n + 1 => MEvent.s2SolveStep :: MEvent.s1SolveIteration 3 :: MEvent.pairTrace n

/-- The corrector loop of SIMFractureMiehe::solveStep (SIMFractureQstatic.h
lines 229-238), iterating tp.iter from 1 while tp.iter < numCycle.  The
argument n is the remaining iteration count, k the index of the next oracle
slot; callOk gives each checked subsystem call's outcome in call order (for a
solveIteration call, callOk is false exactly when the returned status is
DIVERGED or worse).  Returns the success flag, the next free oracle slot and
the events issued. -/
def SIMFractureMiehe.cycleLoop (callOk : ℕ → Bool) : ℕ → ℕ → Bool × ℕ × List MEvent
  | 0, k => (true, k, [])
  | n + 1, k =>
    if callOk k = false then
      (false, k + 1, [MEvent.s2SolveStep])
    else if callOk (k + 1) = false then
      (false, k + 2, [MEvent.s2SolveStep, MEvent.s1SolveIteration 3])
    else
      let r := SIMFractureMiehe.cycleLoop callOk n (k + 2)
      (r.1, r.2.1, MEvent.s2SolveStep :: MEvent.s1SolveIteration 3 :: r.2.2)

/-- The residual/energy diagnostic block closing SIMFractureMiehe::solveStep
(SIMFractureQstatic.h lines 245-273).  Oracle slot k is consumed by the
S1.setMode(RHS_ONLY) call whose result the source discards; slots k+1..k+5
are the checked calls in source order.  extractScalar cannot fail and simply
delivers the energy value. -/
def SIMFractureMiehe.residualBlock (callOk : ℕ → Bool) (k : ℕ)
    (r1 e1 r2 e2 : ℚ) : Bool × List MEvent :=
  if callOk (k + 1) = false then
    (false, [MEvent.s1SetModeRHS, MEvent.s1Assemble])
  else if callOk (k + 2) = false then
    (false, [MEvent.s1SetModeRHS, MEvent.s1Assemble, MEvent.s1Extract r1])
  else if callOk (k + 3) = false then
    (false, [MEvent.s1SetModeRHS, MEvent.s1Assemble, MEvent.s1Extract r1,
             MEvent.s1Scalar e1, MEvent.s2SetModeIF])
  else if callOk (k + 4) = false then
    (false, [MEvent.s1SetModeRHS, MEvent.s1Assemble, MEvent.s1Extract r1,
             MEvent.s1Scalar e1, MEvent.s2SetModeIF, MEvent.s2Assemble])
  else if callOk (k + 5) = false then
    (false, [MEvent.s1SetModeRHS, MEvent.s1Assemble, MEvent.s1Extract r1,
             MEvent.s1Scalar e1, MEvent.s2SetModeIF, MEvent.s2Assemble,
             MEvent.s2Extract r2])
  else
    (true, [MEvent.s1SetModeRHS, MEvent.s1Assemble, MEvent.s1Extract r1,
            MEvent.s1Scalar e1, MEvent.s2SetModeIF, MEvent.s2Assemble,
            MEvent.s2Extract r2, MEvent.s2Scalar e2])

/-- The predictor-corrector block of SIMFractureMiehe::solveStep
(SIMFractureQstatic.h lines 211-243) followed by the residual block: the
predictor solveIteration with tag 1, the strain-energy-density update, the
first Field-B solve, the first corrector solveIteration with tag 2, the
cycle loop for tp.iter = 1 .. numCycle-1, the two postSolve calls (whose
results the source discards) and finally the residual diagnostics. -/
def SIMFractureMiehe.correctorPhase (callOk : ℕ → Bool) (k : ℕ)
    (numCycle : ℤ) (r1 e1 r2 e2 : ℚ) : Bool × List MEvent :=
  if callOk k = false then
    (false, [MEvent.s1SolveIteration 1])
  else if callOk (k + 1) = false then
    (false, [MEvent.s1SolveIteration 1, MEvent.s1UpdateSED])
  else if callOk (k + 2) = false then
    (false, [MEvent.s1SolveIteration 1, MEvent.s1UpdateSED, MEvent.s2SolveStep])
  else if callOk (k + 3) = false then
    (false, [MEvent.s1SolveIteration 1, MEvent.s1UpdateSED, MEvent.s2SolveStep,
             MEvent.s1SolveIteration 2])
  else
    let L := SIMFractureMiehe.cycleLoop callOk (numCycle - 1).toNat (k + 4)
    let head := [MEvent.s1SolveIteration 1, MEvent.s1UpdateSED,
                 MEvent.s2SolveStep, MEvent.s1SolveIteration 2]
    if L.1 = false then (false, head ++ L.2.2)
    else
      let R := SIMFractureMiehe.residualBlock callOk (L.2.1 + 2) r1 e1 r2 e2
      (R.1, head ++ L.2.2 ++ [MEvent.s1Post, MEvent.s2Post] ++ R.2)

/-- SIMFractureMiehe::solveStep (SIMFractureQstatic.h lines 187-274).
The step-1 bootstrap branches come first: with a prescribed initial phase
field, S2.postSolve and S1.solveStep are performed and the corrector phase is
skipped (the guard tp.step > 1 || !hasIC fails); with a crack pressure and no
initial field, one extra Field-B solve precedes the corrector phase.  The
oracle callOk supplies each call's outcome in call order; the two postSolve
calls at the end of the corrector phase and the S1.setMode call of the
residual block consume a slot whose value the source discards.  The
tp.time.first assignments have no observable effect in this model and are
omitted. -/
def SIMFractureMiehe.solveStep (numCycle step : ℤ) (hasIC haveCP : Bool)
    (callOk : ℕ → Bool) (r1 e1 r2 e2 : ℚ) : Bool × List MEvent :=
  if step = 1 ∧ hasIC = true then
    if callOk 0 = false then (false, [MEvent.s2Post])
    else if callOk 1 = false then (false, [MEvent.s2Post, MEvent.s1SolveStep])
    else
      let R := SIMFractureMiehe.residualBlock callOk 2 r1 e1 r2 e2
      (R.1, [MEvent.s2Post, MEvent.s1SolveStep] ++ R.2)
  else if step = 1 ∧ haveCP = true then
    if callOk 0 = false then (false, [MEvent.s2SolveStep])
    else
      let M := SIMFractureMiehe.correctorPhase callOk 1 numCycle r1 e1 r2 e2
      (M.1, MEvent.s2SolveStep :: M.2)
  else if 1 < step ∨ hasIC = false then
    SIMFractureMiehe.correctorPhase callOk 0 numCycle r1 e1 r2 e2
  else
    SIMFractureMiehe.residualBlock callOk 0 r1 e1 r2 e2

/-- Environment of a SIMFracture::adaptMesh call: the observable data and
call outcomes delivered by the two subsystems and the spline patch.
idx models the element ordering produced by the std::sort call on lines
202-205 (the comparator is a strict order on indicator values, so any
permutation sorted by the indicators may result; theorems about the sorted
walk carry the corresponding hypotheses).  cur1, cur2 and curH are the values
S1.getSolutions(), S2.getSolution() and S2.getHistoryField() would deliver,
read by saveState.  refineSols models the in-place transfer S1.refine
performs on the solution buffer passed to it by reference.  readOk,
preprocessOk, initOk and initSysOk each aggregate the consecutive
same-stage calls on both subsystems (short-circuited in the source). -/
structure AMEnv where
  pchOk : Bool
  area : ℕ → ℝ
  eNorm : List ℝ
  gNorm : ℝ
  idx : List ℕ
  cur1 : List (List ℝ)
  cur2 : List ℝ
  curH : List ℝ
  refine1Ok : Bool
  refine2Ok : Bool
  refineSols : List (List ℝ) → List (List ℝ)
  readOk : Bool
  preprocessOk : Bool
  initOk : Bool
  initSysOk : Bool

/-- The SIMFracture member state read and written by saveState and
adaptMesh: the element-area floor aMin, the solution snapshot buffer sols
and the history snapshot buffer hsol. -/
structure AMState where
  aMin : ℝ
  sols : List (List ℝ)
  hsol : List ℝ

/-- The calls adaptMesh issues against the subsystems, in source order.
setAMin is the driver-internal assignment of the area floor; refine1 carries
the solution buffer passed by reference to S1.refine; clearProps, readInput,
preprocessCall, initCall and initSys each stand for the consecutive
same-stage calls on both subsystems; setSolutions, setSolution and
transferHist are the state-restoration calls with the values they deliver. -/
inductive AMEvent
  | setAMin (v : ℝ)
  | refine1 (elems : List ℕ) (solsArg : List (List ℝ))
  | refine2 (elems : List ℕ)
  | clearProps
  | readInput
  | preprocessCall
  | initCall
  | initSys
  | setSolutions (v : List (List ℝ))
  | setSolution (v : List ℝ)
  | transferHist (h : List ℝ)

/-- True for events that act on the subsystems (mesh topology, solution
vectors, history fields); false for the driver-internal area-floor update. -/
def AMEvent.mutatesSim : AMEvent → Bool
  | .setAMin _ => false
  | _ => true

/-- SIMFracture::saveState (SIMFractureDynamics.h lines 151-156): stores
S1.getSolutions() with S2.getSolution() appended into the sols buffer and
S2.getHistoryField() into the hsol buffer. -/
def SIMFracture.saveState (env : AMEnv) (st : AMState) : AMState :=
  ⟨st.aMin, env.cur1 ++ [env.cur2], env.curH⟩

/-- The area-floor computation of adaptMesh (SIMFractureDynamics.h lines
185-189): when the stored floor is still unset (non-positive), it becomes the
area of element 0 divided by redMax squared with redMax = 2^nrefinements;
otherwise it is kept. -/
noncomputable def SIMFracture.adaptAMin (aMin area0 : ℝ) (nrefinements : ℤ) : ℝ :=
  if aMin ≤ 0 then area0 / ((2 : ℝ) ^ nrefinements * (2 : ℝ) ^ nrefinements)
  else aMin

/-- The minimum indicator value eligible for refinement (line 207): a
negative min_frac is interpreted as a fraction of the global norm divided by
the square root of the element count, a nonnegative one as an absolute
floor. -/
noncomputable def SIMFracture.adaptEMin (min_frac gNorm : ℝ) (n : ℕ) : ℝ :=
  if min_frac < 0 then -min_frac * gNorm / Real.sqrt n else min_frac

/-- The element budget (line 208): all elements when beta is negative, else
idx.size()*beta/100.0 converted to size_t, which truncates the nonnegative
double toward zero. -/
noncomputable def SIMFracture.adaptEMax (beta : ℝ) (n : ℕ) : ℕ :=
  if beta < 0 then n else ⌊(n : ℝ) * beta / 100⌋₊

/-- The element-selection loop of adaptMesh (lines 216-222): walk the sorted
element ids, break at the first id whose indicator exceeds eMin or once the
selection has reached the budget eMax, and push the ids whose area exceeds
the floor plus the 1.0e-12 tolerance.  acc is the selection built so far. -/
noncomputable def SIMFracture.selectElements (eNorm : List ℝ) (area : ℕ → ℝ)
    (aMin eMin : ℝ) (eMax : ℕ) (acc : List ℕ) : List ℕ → List ℕ
  | [] => acc
  | eid :: rest =>
    if eMin < eNorm.getD eid 0 ∨ eMax ≤ acc.length then acc
    else if aMin + 1 / 10 ^ 12 < area eid then
      SIMFracture.selectElements eNorm area aMin eMin eMax (acc ++ [eid]) rest
    else
      SIMFracture.selectElements eNorm area aMin eMin eMax acc rest

/-- The refinement pipeline of adaptMesh once a non-empty selection exists
(SIMFractureDynamics.h lines 231-276): S1.refine on the buffered solution
state (short-circuiting S2.refine on failure, both reported as -2), the
clearProperties pair, the re-read of the input file (-3), re-preprocessing
(-4), re-initialization (-5), linear-system setup (-6), and finally the
restoration of the buffered solution and history state onto the new mesh.
The sols buffer is passed by reference to S1.refine, which transfers it onto
the refined basis; this in-place mutation is modelled by env.refineSols,
applied once S1.refine has run successfully.  aMin' is the area floor in
force and ev0 the events already issued. -/
noncomputable def SIMFracture.refinePhase (env : AMEnv) (aMin' : ℝ)
    (elements : List ℕ) (st : AMState) (ev0 : List AMEvent) :
    ℤ × AMState × List AMEvent :=
  if env.refine1Ok = false then
    (-2, ⟨aMin', st.sols, st.hsol⟩, ev0 ++ [AMEvent.refine1 elements st.sols])
  else if env.refine2Ok = false then
    (-2, ⟨aMin', env.refineSols st.sols, st.hsol⟩,
     ev0 ++ [AMEvent.refine1 elements st.sols, AMEvent.refine2 elements])
  else if env.readOk = false then
    (-3, ⟨aMin', env.refineSols st.sols, st.hsol⟩,
     ev0 ++ [AMEvent.refine1 elements st.sols, AMEvent.refine2 elements,
             AMEvent.clearProps, AMEvent.readInput])
  else if env.preprocessOk = false then
    (-4, ⟨aMin', env.refineSols st.sols, st.hsol⟩,
     ev0 ++ [AMEvent.refine1 elements st.sols, AMEvent.refine2 elements,
             AMEvent.clearProps, AMEvent.readInput, AMEvent.preprocessCall])
  else if env.initOk = false then
    (-5, ⟨aMin', env.refineSols st.sols, st.hsol⟩,
     ev0 ++ [AMEvent.refine1 elements st.sols, AMEvent.refine2 elements,
             AMEvent.clearProps, AMEvent.readInput, AMEvent.preprocessCall,
             AMEvent.initCall])
  else if env.initSysOk = false then
    (-6, ⟨aMin', env.refineSols st.sols, st.hsol⟩,
     ev0 ++ [AMEvent.refine1 elements st.sols, AMEvent.refine2 elements,
             AMEvent.clearProps, AMEvent.readInput, AMEvent.preprocessCall,
             AMEvent.initCall, AMEvent.initSys])
  else
    ((elements.length : ℤ), ⟨aMin', env.refineSols st.sols, st.hsol⟩,
     ev0 ++ [AMEvent.refine1 elements st.sols, AMEvent.refine2 elements,
             AMEvent.clearProps, AMEvent.readInput, AMEvent.preprocessCall,
             AMEvent.initCall, AMEvent.initSys] ++
     (if (env.refineSols st.sols).isEmpty = true then []
      else [AMEvent.setSolutions (env.refineSols st.sols),
            AMEvent.setSolution ((env.refineSols st.sols).getLastD [])]) ++
     (if st.hsol.isEmpty = true then []
      else [AMEvent.transferHist st.hsol]))

/-- SIMFracture::adaptMesh (SIMFractureDynamics.h lines 178-281, the
HAS_LRSPLINE branch).  Returns the C++ return code, the final member state
and the calls issued to the subsystems: the patch-cast check (-999), the
area-floor computation, the missing-indicator check (-1), the selection of
elements on the sorted walk, the no-op return 0 on an empty selection, and
the refinement pipeline above.  adaptMesh itself never writes the snapshot
buffers; it only reads them (refine, setSolutions, setSolution,
transferHist). -/
noncomputable def SIMFracture.adaptMesh (beta min_frac : ℝ) (nrefinements : ℤ)
    (env : AMEnv) (st : AMState) : ℤ × AMState × List AMEvent :=
  if env.pchOk = false then (-999, st, [])
  else if env.eNorm.isEmpty = true then
    (-1, ⟨SIMFracture.adaptAMin st.aMin (env.area 0) nrefinements,
          st.sols, st.hsol⟩,
     if st.aMin ≤ 0 then
       [AMEvent.setAMin (SIMFracture.adaptAMin st.aMin (env.area 0) nrefinements)]
     else [])
  else if (SIMFracture.selectElements env.eNorm env.area
      (SIMFracture.adaptAMin st.aMin (env.area 0) nrefinements)
      (SIMFracture.adaptEMin min_frac env.gNorm env.idx.length)
      (SIMFracture.adaptEMax beta env.idx.length) [] env.idx).isEmpty = true then
    (0, ⟨SIMFracture.adaptAMin st.aMin (env.area 0) nrefinements,
         st.sols, st.hsol⟩,
     if st.aMin ≤ 0 then
       [AMEvent.setAMin (SIMFracture.adaptAMin st.aMin (env.area 0) nrefinements)]
     else [])
  else
    SIMFracture.refinePhase env
      (SIMFracture.adaptAMin st.aMin (env.area 0) nrefinements)
      (SIMFracture.selectElements env.eNorm env.area
        (SIMFracture.adaptAMin st.aMin (env.area 0) nrefinements)
        (SIMFracture.adaptEMin min_frac env.gNorm env.idx.length)
        (SIMFracture.adaptEMax beta env.idx.length) [] env.idx)
      st
      (if st.aMin ≤ 0 then
         [AMEvent.setAMin (SIMFracture.adaptAMin st.aMin (env.area 0) nrefinements)]
       else [])

/-! ## Theorems -/

/-- Reduction of checkConvergence to its final tolerance/cycle decision when
both incoming statuses are benign and every checked subsystem call
succeeds. -/
theorem checkConvergence_clean (cycleTol : ℚ) (maxCycle iter : ℤ)
    (c : CheckCalls) (tr : EnergyTrace)
    (h1f : c.status1 ≠ SIM.ConvStatus.failure)
    (h2f : c.status2 ≠ SIM.ConvStatus.failure)
    (h1d : c.status1 ≠ SIM.ConvStatus.diverged)
    (h2d : c.status2 ≠ SIM.ConvStatus.diverged)
    (ha1 : c.s1AssembleOk = true) (he1 : c.s1ExtractOk = true)
    (hm2 : c.s2SetModeOk = true) (ha2 : c.s2AssembleOk = true)
    (he2 : c.s2ExtractOk = true) :
    (SIMFractureQstatic.checkConvergence cycleTol maxCycle iter c tr).1 =
      if c.rNorm1 + c.rNorm2 < |cycleTol| then SIM.ConvStatus.converged
      else if iter < maxCycle then SIM.ConvStatus.ok
      else if cycleTol < 0 then SIM.ConvStatus.converged
      else SIM.ConvStatus.diverged := by
  unfold SIMFractureQstatic.checkConvergence
  rw [if_neg (by simp [h1f, h2f]), if_neg (by simp [h1d, h2d]),
    if_neg (by simp [ha1]), if_neg (by simp [he1]), if_neg (by simp [hm2]),
    if_neg (by simp [ha2]), if_neg (by simp [he2])]
  by_cases hR : c.rNorm1 + c.rNorm2 < |cycleTol|
  · rw [if_pos hR, if_pos hR]
  · rw [if_neg hR, if_neg hR]
    by_cases hI : iter < maxCycle
    · rw [if_pos hI, if_pos hI]
    · rw [if_neg hI, if_neg hI]
      by_cases hT : cycleTol < 0
      · rw [if_pos hT, if_pos hT]
      · rw [if_neg hT, if_neg hT]

/-- C1: with both incoming statuses neither FAILURE nor DIVERGED and all
checked assembly/extraction calls succeeding, for positive tolerance the
successive-iteration convergence check returns CONVERGED iff the combined
residual is below the tolerance, OK iff the residual is at or above it and
the cycle index is below maxCycles, and DIVERGED iff the residual is at or
above it and the cycle index has reached maxCycles; for negative tolerance,
once the cycle index has reached maxCycles the check returns CONVERGED
regardless of the residual. -/
theorem C1_checkConvergence_rule (cycleTol : ℚ) (maxCycle iter : ℤ)
    (c : CheckCalls) (tr : EnergyTrace)
    (h1f : c.status1 ≠ SIM.ConvStatus.failure)
    (h2f : c.status2 ≠ SIM.ConvStatus.failure)
    (h1d : c.status1 ≠ SIM.ConvStatus.diverged)
    (h2d : c.status2 ≠ SIM.ConvStatus.diverged)
    (ha1 : c.s1AssembleOk = true) (he1 : c.s1ExtractOk = true)
    (hm2 : c.s2SetModeOk = true) (ha2 : c.s2AssembleOk = true)
    (he2 : c.s2ExtractOk = true) :
    ((0 : ℚ) < cycleTol →
      (((SIMFractureQstatic.checkConvergence cycleTol maxCycle iter c tr).1 =
          SIM.ConvStatus.converged ↔ c.rNorm1 + c.rNorm2 < cycleTol) ∧
       ((SIMFractureQstatic.checkConvergence cycleTol maxCycle iter c tr).1 =
          SIM.ConvStatus.ok ↔
            (cycleTol ≤ c.rNorm1 + c.rNorm2 ∧ iter < maxCycle)) ∧
       ((SIMFractureQstatic.checkConvergence cycleTol maxCycle iter c tr).1 =
          SIM.ConvStatus.diverged ↔
            (cycleTol ≤ c.rNorm1 + c.rNorm2 ∧ maxCycle ≤ iter)))) ∧
    (cycleTol < 0 → maxCycle ≤ iter →
      (SIMFractureQstatic.checkConvergence cycleTol maxCycle iter c tr).1 =
        SIM.ConvStatus.converged) := by
  rw [checkConvergence_clean cycleTol maxCycle iter c tr
    h1f h2f h1d h2d ha1 he1 hm2 ha2 he2]
  constructor
  · intro hpos
    rw [abs_of_pos hpos]
    refine ⟨?_, ?_, ?_⟩ <;> constructor
    · intro h
      by_contra hR
      rw [if_neg hR] at h
      by_cases hI : iter < maxCycle
      · rw [if_pos hI] at h; exact absurd h (by decide)
      · rw [if_neg hI, if_neg (by linarith)] at h
        exact absurd h (by decide)
    · intro h; rw [if_pos h]
    · intro h
      by_cases hR : c.rNorm1 + c.rNorm2 < cycleTol
      · rw [if_pos hR] at h; exact absurd h (by decide)
      · rw [if_neg hR] at h
        by_cases hI : iter < maxCycle
        · exact ⟨by linarith, hI⟩
        · rw [if_neg hI, if_neg (by linarith)] at h
          exact absurd h (by decide)
    · rintro ⟨hR, hI⟩
      rw [if_neg (by linarith), if_pos hI]
    · intro h
      by_cases hR : c.rNorm1 + c.rNorm2 < cycleTol
      · rw [if_pos hR] at h; exact absurd h (by decide)
      · rw [if_neg hR] at h
        by_cases hI : iter < maxCycle
        · rw [if_pos hI] at h; exact absurd h (by decide)
        · exact ⟨by linarith, by omega⟩
    · rintro ⟨hR, hI⟩
      rw [if_neg (by linarith), if_neg (by omega), if_neg (by linarith)]
  · intro hneg hI
    by_cases hR : c.rNorm1 + c.rNorm2 < |cycleTol|
    · rw [if_pos hR]
    · rw [if_neg hR, if_neg (by omega), if_pos hneg]

/-- Witness for C1: tolerance 1, cycle 0 of at most 50, zero residuals,
statuses OK/OK, all calls succeeding; the theorem yields CONVERGED. -/
theorem C1_checkConvergence_rule_witness :
    (SIMFractureQstatic.checkConvergence 1 50 0
      ⟨SIM.ConvStatus.ok, SIM.ConvStatus.ok, true, true, true, true, true,
       true, 0, 0, 0, 0⟩ ⟨0, 0, 0⟩).1 = SIM.ConvStatus.converged := by
  have h := C1_checkConvergence_rule 1 50 0
    ⟨SIM.ConvStatus.ok, SIM.ConvStatus.ok, true, true, true, true, true,
     true, 0, 0, 0, 0⟩ ⟨0, 0, 0⟩ (by decide) (by decide) (by decide)
    (by decide) (by decide) (by decide) (by decide) (by decide) (by decide)
  exact (h.1 (by norm_num)).1.mpr (by norm_num)

/-- C4 counterexample: the claim says the check returns FAILURE whenever any
mode-setting call on either field fails, but the source discards the result
of S1.setMode(SIM::RHS_ONLY): with that call failing and everything else
succeeding the check returns CONVERGED.  Also, with an incoming DIVERGED
status the check returns DIVERGED before issuing any call, so a FAILURE from
a would-be failing assembly never materializes. -/
theorem C4_counterexample :
    ((SIMFractureQstatic.checkConvergence 1 50 0
        ⟨SIM.ConvStatus.ok, SIM.ConvStatus.ok, false, true, true, true, true,
         true, 0, 0, 0, 0⟩ ⟨0, 0, 0⟩).1 = SIM.ConvStatus.converged ∧
      (SIMFractureQstatic.checkConvergence 1 50 0
        ⟨SIM.ConvStatus.ok, SIM.ConvStatus.ok, false, true, true, true, true,
         true, 0, 0, 0, 0⟩ ⟨0, 0, 0⟩).1 ≠ SIM.ConvStatus.failure) ∧
    ((SIMFractureQstatic.checkConvergence 1 50 0
        ⟨SIM.ConvStatus.diverged, SIM.ConvStatus.ok, true, false, true, true,
         true, true, 0, 0, 0, 0⟩ ⟨0, 0, 0⟩).1 = SIM.ConvStatus.diverged ∧
      (SIMFractureQstatic.checkConvergence 1 50 0
        ⟨SIM.ConvStatus.diverged, SIM.ConvStatus.ok, true, false, true, true,
         true, true, 0, 0, 0, 0⟩ ⟨0, 0, 0⟩).1 ≠ SIM.ConvStatus.failure) := by
  norm_num [SIMFractureQstatic.checkConvergence]
  simp

/-- C4 as amended: the successive-iteration convergence check returns
FAILURE immediately whenever either incoming field status is FAILURE, or,
when neither incoming status is FAILURE or DIVERGED, whenever Field A's
system-assembly or load-vector-extraction call, or Field B's mode-setting,
system-assembly or load-vector-extraction call fails; the result of
Field A's mode-setting call is discarded and does not influence the
outcome. -/
theorem C4_failure_propagation (cycleTol : ℚ) (maxCycle iter : ℤ)
    (c : CheckCalls) (tr : EnergyTrace)
    (h : c.status1 = SIM.ConvStatus.failure ∨
         c.status2 = SIM.ConvStatus.failure ∨
         (c.status1 ≠ SIM.ConvStatus.diverged ∧
          c.status2 ≠ SIM.ConvStatus.diverged ∧
          (c.s1AssembleOk = false ∨ c.s1ExtractOk = false ∨
           c.s2SetModeOk = false ∨ c.s2AssembleOk = false ∨
           c.s2ExtractOk = false))) :
    (SIMFractureQstatic.checkConvergence cycleTol maxCycle iter c tr).1 =
      SIM.ConvStatus.failure := by
  unfold SIMFractureQstatic.checkConvergence
  rcases h with h | h | ⟨hd1, hd2, h⟩
  · rw [if_pos (Or.inl h)]
  · rw [if_pos (Or.inr h)]
  · by_cases hf : c.status1 = SIM.ConvStatus.failure ∨
        c.status2 = SIM.ConvStatus.failure
    · rw [if_pos hf]
    · rw [if_neg hf, if_neg (by simp [hd1, hd2])]
      split_ifs <;> simp_all

/-- Witness for C4 as amended: an incoming FAILURE status on Field A forces
a FAILURE result. -/
theorem C4_failure_propagation_witness :
    (SIMFractureQstatic.checkConvergence 1 50 0
      ⟨SIM.ConvStatus.failure, SIM.ConvStatus.ok, true, true, true, true,
       true, true, 0, 0, 0, 0⟩ ⟨0, 0, 0⟩).1 = SIM.ConvStatus.failure :=
  C4_failure_propagation 1 50 0
    ⟨SIM.ConvStatus.failure, SIM.ConvStatus.ok, true, true, true, true,
     true, true, 0, 0, 0, 0⟩ ⟨0, 0, 0⟩ (Or.inl rfl)

/-- The status component of checkConvergence depends only on the incoming
statuses, the checked call outcomes and the residual norms: it is congruent
in those fields for any energy scalars and any stored trace. -/
theorem checkConvergence_status_congr (cycleTol : ℚ) (maxCycle iter : ℤ)
    (c c' : CheckCalls) (tr tr' : EnergyTrace)
    (h1 : c.status1 = c'.status1) (h2 : c.status2 = c'.status2)
    (ha1 : c.s1AssembleOk = c'.s1AssembleOk)
    (hx1 : c.s1ExtractOk = c'.s1ExtractOk)
    (hm2 : c.s2SetModeOk = c'.s2SetModeOk)
    (ha2 : c.s2AssembleOk = c'.s2AssembleOk)
    (hx2 : c.s2ExtractOk = c'.s2ExtractOk)
    (hr1 : c.rNorm1 = c'.rNorm1) (hr2 : c.rNorm2 = c'.rNorm2) :
    (SIMFractureQstatic.checkConvergence cycleTol maxCycle iter c tr).1 =
    (SIMFractureQstatic.checkConvergence cycleTol maxCycle iter c' tr').1 := by
  unfold SIMFractureQstatic.checkConvergence
  rw [h1, h2, ha1, hx1, hm2, ha2, hx2, hr1, hr2]
  by_cases g1 : c'.status1 = SIM.ConvStatus.failure ∨
      c'.status2 = SIM.ConvStatus.failure
  · rw [if_pos g1, if_pos g1]
  · rw [if_neg g1, if_neg g1]
    by_cases g2 : c'.status1 = SIM.ConvStatus.diverged ∨
        c'.status2 = SIM.ConvStatus.diverged
    · rw [if_pos g2, if_pos g2]
    · rw [if_neg g2, if_neg g2]
      by_cases g3 : c'.s1AssembleOk = false
      · rw [if_pos g3, if_pos g3]
      · rw [if_neg g3, if_neg g3]
        by_cases g4 : c'.s1ExtractOk = false
        · rw [if_pos g4, if_pos g4]
        · rw [if_neg g4, if_neg g4]
          by_cases g5 : c'.s2SetModeOk = false
          · rw [if_pos g5, if_pos g5]
          · rw [if_neg g5, if_neg g5]
            by_cases g6 : c'.s2AssembleOk = false
            · rw [if_pos g6, if_pos g6]
            · rw [if_neg g6, if_neg g6]
              by_cases g7 : c'.s2ExtractOk = false
              · rw [if_pos g7, if_pos g7]
              · rw [if_neg g7, if_neg g7]
                by_cases g8 : c'.rNorm1 + c'.rNorm2 < |cycleTol|
                · rw [if_pos g8, if_pos g8]
                · rw [if_neg g8, if_neg g8]
                  by_cases g9 : iter < maxCycle
                  · rw [if_pos g9, if_pos g9]
                  · rw [if_neg g9, if_neg g9]
                    by_cases g10 : cycleTol < 0
                    · rw [if_pos g10, if_pos g10]
                    · rw [if_neg g10, if_neg g10]

/-- C9: the status returned by the successive-iteration convergence check
does not depend on the energy scalars extracted from the two fields nor on
the stored energy trace E0/Ec/Ep: two runs agreeing on the incoming
statuses, the call outcomes, the residual norms, the cycle index, the
tolerance and the cycle cap return the same status for any energy values
(the energies feed only the diagnostic trace and the printed staggering
angle). -/
theorem C9_status_ignores_energy (cycleTol : ℚ) (maxCycle iter : ℤ)
    (s1 s2 : SIM.ConvStatus) (m1 a1 x1 m2 a2 x2 : Bool)
    (r1 r2 q1 q2 q1' q2' : ℚ) (tr tr' : EnergyTrace) :
    (SIMFractureQstatic.checkConvergence cycleTol maxCycle iter
      ⟨s1, s2, m1, a1, x1, m2, a2, x2, r1, r2, q1, q2⟩ tr).1 =
    (SIMFractureQstatic.checkConvergence cycleTol maxCycle iter
      ⟨s1, s2, m1, a1, x1, m2, a2, x2, r1, r2, q1', q2'⟩ tr').1 :=
  checkConvergence_status_congr cycleTol maxCycle iter _ _ tr tr'
    rfl rfl rfl rfl rfl rfl rfl rfl rfl

/-- C10: beyond the first time step, SIMFractureQstatic::solveStep discards
the caller-supplied solve-order flag and delegates to the parent with the
negation of S2.hasIC("phasefield"): the elasticity field is solved first iff
no initial phase field is prescribed. -/
theorem C10_solveStep_overrides_flag (cycleTol : ℚ) (maxCycle iter : ℤ)
    (env : QstaticEnv) (c : CheckCalls) (tr : EnergyTrace) (step : ℤ)
    (hstep : 1 < step) (firstS1 : Bool) :
    SIMFractureQstatic.solveStep cycleTol maxCycle iter env c tr step firstS1 =
      QstaticOutcome.parentSolve (!env.hasICphasefield) := by
  unfold SIMFractureQstatic.solveStep
  rw [if_neg (by omega)]

/-- Witness for C10: at step 2 with an initial phase field prescribed, the
caller's flag true is replaced by false. -/
theorem C10_solveStep_overrides_flag_witness :
    SIMFractureQstatic.solveStep 1 50 0 ⟨true, false, true, true, true⟩
      ⟨SIM.ConvStatus.ok, SIM.ConvStatus.ok, true, true, true, true, true,
       true, 0, 0, 0, 0⟩ ⟨0, 0, 0⟩ 2 true =
      QstaticOutcome.parentSolve false := by
  have h := C10_solveStep_overrides_flag 1 50 0 ⟨true, false, true, true, true⟩
    ⟨SIM.ConvStatus.ok, SIM.ConvStatus.ok, true, true, true, true, true,
     true, 0, 0, 0, 0⟩ ⟨0, 0, 0⟩ 2 (by decide) true
  simpa using h

/-- C8: with a stop criterion configured (irfStop positive), at any step
beyond step 1 whose saveStep computes a reaction vector with at least
irfStop components whose 1-based component irfStop is below stopVal in
magnitude, the stop flag is raised and the next advanceStep call returns
false whatever the coupled driver's own advance returns. -/
theorem C8_stop_criterion (step : ℤ) (irfStop : ℕ) (stopVal : ℚ)
    (RF : List ℚ) (doStop0 parentOk : Bool)
    (hstep : 1 < step) (hirf : 0 < irfStop) (hlen : irfStop ≤ RF.length)
    (hval : |RF.getD (irfStop - 1) 0| < stopVal) :
    SIMFracture.saveStepDoStop step irfStop stopVal RF doStop0 = true ∧
    SIMFracture.advanceStep parentOk
      (SIMFracture.saveStepDoStop step irfStop stopVal RF doStop0) = false := by
  have h1 : SIMFracture.saveStepDoStop step irfStop stopVal RF doStop0 = true := by
    unfold SIMFracture.saveStepDoStop
    rw [if_pos ⟨hstep, hirf, hlen⟩]
    exact decide_eq_true hval
  refine ⟨h1, ?_⟩
  rw [h1]
  cases parentOk <;> rfl

/-- Witness for C8: reaction-stop with irfStop = 2 and stopVal = 50 at step 2
with reactions [100, 10]: component 2 has magnitude 10 < 50, so the next
advanceStep returns false. -/
theorem C8_stop_criterion_witness :
    SIMFracture.saveStepDoStop 2 2 50 [100, 10] false = true ∧
    SIMFracture.advanceStep true
      (SIMFracture.saveStepDoStop 2 2 50 [100, 10] false) = false :=
  C8_stop_criterion 2 2 50 [100, 10] false true (by decide) (by decide)
    (by decide) (by decide)

/-- With every call succeeding, the corrector loop performs all its
iterations, consuming two oracle slots per pair and emitting the pair
trace. -/
theorem cycleLoop_all_ok (callOk : ℕ → Bool) (h : ∀ i, callOk i = true) :
    ∀ n k, SIMFractureMiehe.cycleLoop callOk n k =
      (true, k + 2 * n, MEvent.pairTrace n) := by
  intro n
  induction n with
  | zero =>
    intro k
    simp [SIMFractureMiehe.cycleLoop, MEvent.pairTrace]
  | succ n ih =>
    intro k
    simp [SIMFractureMiehe.cycleLoop, h, ih (k + 2), MEvent.pairTrace,
      Prod.ext_iff]
    omega

/-- With every call succeeding, the residual block emits its eight
diagnostic events and succeeds. -/
theorem residualBlock_all_ok (callOk : ℕ → Bool) (h : ∀ i, callOk i = true)
    (k : ℕ) (r1 e1 r2 e2 : ℚ) :
    SIMFractureMiehe.residualBlock callOk k r1 e1 r2 e2 =
      (true, [MEvent.s1SetModeRHS, MEvent.s1Assemble, MEvent.s1Extract r1,
              MEvent.s1Scalar e1, MEvent.s2SetModeIF, MEvent.s2Assemble,
              MEvent.s2Extract r2, MEvent.s2Scalar e2]) := by
  simp [SIMFractureMiehe.residualBlock, h]

/-- With every call succeeding, the predictor-corrector block emits the
predictor, the strain-energy update, the first pair, the remaining
numCycle-1 pairs, the two post-processing calls and the residual
diagnostics. -/
theorem correctorPhase_all_ok (callOk : ℕ → Bool) (h : ∀ i, callOk i = true)
    (k : ℕ) (numCycle : ℤ) (r1 e1 r2 e2 : ℚ) :
    SIMFractureMiehe.correctorPhase callOk k numCycle r1 e1 r2 e2 =
      (true, [MEvent.s1SolveIteration 1, MEvent.s1UpdateSED,
              MEvent.s2SolveStep, MEvent.s1SolveIteration 2] ++
             MEvent.pairTrace (numCycle - 1).toNat ++
             [MEvent.s1Post, MEvent.s2Post] ++
             [MEvent.s1SetModeRHS, MEvent.s1Assemble, MEvent.s1Extract r1,
              MEvent.s1Scalar e1, MEvent.s2SetModeIF, MEvent.s2Assemble,
              MEvent.s2Extract r2, MEvent.s2Scalar e2]) := by
  simp [SIMFractureMiehe.correctorPhase, h, cycleLoop_all_ok callOk h,
    residualBlock_all_ok callOk h]

/-- The pair trace contains no predictor solve. -/
theorem pairTrace_countP_predictor (n : ℕ) :
    (MEvent.pairTrace n).countP MEvent.isPredictor = 0 := by
  induction n with
  | zero => rfl
  | succ n ih => simp [MEvent.pairTrace, List.countP_cons, ih, MEvent.isPredictor]

/-- The pair trace contains exactly one corrector solve per pair. -/
theorem pairTrace_countP_corrector (n : ℕ) :
    (MEvent.pairTrace n).countP MEvent.isCorrector = n := by
  induction n with
  | zero => rfl
  | succ n ih => simp [MEvent.pairTrace, List.countP_cons, ih, MEvent.isCorrector]

/-- The pair trace contains no elasticity post-processing call. -/
theorem pairTrace_countP_s1Post (n : ℕ) :
    (MEvent.pairTrace n).countP (fun ev => ev == MEvent.s1Post) = 0 := by
  induction n with
  | zero => rfl
  | succ n ih => simp [MEvent.pairTrace, List.countP_cons, ih]

/-- The pair trace contains no phase-field post-processing call. -/
theorem pairTrace_countP_s2Post (n : ℕ) :
    (MEvent.pairTrace n).countP (fun ev => ev == MEvent.s2Post) = 0 := by
  induction n with
  | zero => rfl
  | succ n ih => simp [MEvent.pairTrace, List.countP_cons, ih]

/-- C3: for every non-bootstrap time step (step above 1, or step 1 without a
prescribed initial phase field), with at least one configured cycle and all
calls succeeding, the fixed-cycle scheme emits exactly one Field A predictor
solve followed by exactly numCycle (Field B solve, Field A corrector solve)
pairs, in that order, then post-processes both fields once; the residual and
energy diagnostics are emitted strictly afterwards and the norms they
deliver are arbitrary parameters that do not appear anywhere in the cycle
structure, so they never affect whether another cycle is performed. -/
theorem C3_fixed_cycle_counts (numCycle step : ℤ) (hasIC haveCP : Bool)
    (callOk : ℕ → Bool) (r1 e1 r2 e2 : ℚ)
    (hstep : 1 < step ∨ (step = 1 ∧ hasIC = false))
    (hnum : 1 ≤ numCycle) (hok : ∀ i, callOk i = true) :
    (SIMFractureMiehe.solveStep numCycle step hasIC haveCP callOk r1 e1 r2 e2 =
      (true,
       (if step = 1 ∧ haveCP = true then [MEvent.s2SolveStep]
        else ([] : List MEvent)) ++
       [MEvent.s1SolveIteration 1, MEvent.s1UpdateSED, MEvent.s2SolveStep,
        MEvent.s1SolveIteration 2] ++
       MEvent.pairTrace (numCycle - 1).toNat ++
       [MEvent.s1Post, MEvent.s2Post] ++
       [MEvent.s1SetModeRHS, MEvent.s1Assemble, MEvent.s1Extract r1,
        MEvent.s1Scalar e1, MEvent.s2SetModeIF, MEvent.s2Assemble,
        MEvent.s2Extract r2, MEvent.s2Scalar e2])) ∧
    (((SIMFractureMiehe.solveStep numCycle step hasIC haveCP callOk
        r1 e1 r2 e2).2.countP MEvent.isPredictor : ℤ) = 1) ∧
    (((SIMFractureMiehe.solveStep numCycle step hasIC haveCP callOk
        r1 e1 r2 e2).2.countP MEvent.isCorrector : ℤ) = numCycle) ∧
    (((SIMFractureMiehe.solveStep numCycle step hasIC haveCP callOk
        r1 e1 r2 e2).2.countP (fun ev => ev == MEvent.s1Post) : ℤ) = 1) ∧
    (((SIMFractureMiehe.solveStep numCycle step hasIC haveCP callOk
        r1 e1 r2 e2).2.countP (fun ev => ev == MEvent.s2Post) : ℤ) = 1) := by
  have hA : ¬(step = 1 ∧ hasIC = true) := by
    rcases hstep with h | ⟨h1, h2⟩
    · rintro ⟨rfl, _⟩; omega
    · rintro ⟨_, hIC⟩; rw [h2] at hIC; exact Bool.false_ne_true hIC
  have htoNat : ((numCycle - 1).toNat : ℤ) = numCycle - 1 := by omega
  have htr : SIMFractureMiehe.solveStep numCycle step hasIC haveCP callOk
      r1 e1 r2 e2 =
      (true,
       (if step = 1 ∧ haveCP = true then [MEvent.s2SolveStep]
        else ([] : List MEvent)) ++
       [MEvent.s1SolveIteration 1, MEvent.s1UpdateSED, MEvent.s2SolveStep,
        MEvent.s1SolveIteration 2] ++
       MEvent.pairTrace (numCycle - 1).toNat ++
       [MEvent.s1Post, MEvent.s2Post] ++
       [MEvent.s1SetModeRHS, MEvent.s1Assemble, MEvent.s1Extract r1,
        MEvent.s1Scalar e1, MEvent.s2SetModeIF, MEvent.s2Assemble,
        MEvent.s2Extract r2, MEvent.s2Scalar e2]) := by
    unfold SIMFractureMiehe.solveStep
    rw [if_neg hA]
    by_cases hB : step = 1 ∧ haveCP = true
    · rw [if_pos hB, if_pos hB]
      simp [hok, correctorPhase_all_ok callOk hok]
    · rw [if_neg hB, if_neg hB]
      have hC : 1 < step ∨ hasIC = false := by
        rcases hstep with h | ⟨h1, h2⟩
        · exact Or.inl h
        · exact Or.inr h2
      rw [if_pos hC]
      simp [correctorPhase_all_ok callOk hok]
  refine ⟨htr, ?_, ?_, ?_, ?_⟩ <;>
    · rw [htr]
      by_cases hB : step = 1 ∧ haveCP = true <;>
        simp [hB, List.countP_append, List.countP_cons,
          pairTrace_countP_predictor, pairTrace_countP_corrector,
          pairTrace_countP_s1Post, pairTrace_countP_s2Post,
          MEvent.isPredictor, MEvent.isCorrector] <;>
        omega

/-- Witness for C3: two configured cycles at step 2 with all calls
succeeding yield exactly two corrector pairs. -/
theorem C3_fixed_cycle_counts_witness :
    ((SIMFractureMiehe.solveStep 2 2 false false (fun _ => true)
      0 0 0 0).2.countP MEvent.isCorrector : ℤ) = 2 := by
  have h := C3_fixed_cycle_counts 2 2 false false (fun _ => true) 0 0 0 0
    (Or.inl (by omega)) (by omega) (fun _ => rfl)
  exact h.2.2.1

/-- Every element the selection loop delivers was either already in the
accumulator or passed the area filter. -/
theorem selectElements_mem (eNorm : List ℝ) (area : ℕ → ℝ) (aMin eMin : ℝ)
    (eMax : ℕ) :
    ∀ l acc e,
      e ∈ SIMFracture.selectElements eNorm area aMin eMin eMax acc l →
      e ∈ acc ∨ aMin + 1 / 10 ^ 12 < area e := by
  intro l
  induction l with
  | nil =>
    intro acc e he
    unfold SIMFracture.selectElements at he
    exact Or.inl he
  | cons eid rest ih =>
    intro acc e he
    unfold SIMFracture.selectElements at he
    by_cases h1 : eMin < eNorm.getD eid 0 ∨ eMax ≤ acc.length
    · rw [if_pos h1] at he
      exact Or.inl he
    · rw [if_neg h1] at he
      by_cases h2 : aMin + 1 / 10 ^ 12 < area eid
      · rw [if_pos h2] at he
        rcases ih _ e he with hacc | harea
        · rcases List.mem_append.1 hacc with h | h
          · exact Or.inl h
          · rw [List.mem_singleton] at h
            subst h
            exact Or.inr h2
        · exact Or.inr harea
      · rw [if_neg h2] at he
        exact ih _ e he

/-- Unfolding equation of the selection loop on an exhausted walk. -/
theorem selectElements_nil (eNorm : List ℝ) (area : ℕ → ℝ) (aMin eMin : ℝ)
    (eMax : ℕ) (acc : List ℕ) :
    SIMFracture.selectElements eNorm area aMin eMin eMax acc [] = acc := rfl

/-- Unfolding equation of the selection loop on a remaining element. -/
theorem selectElements_cons (eNorm : List ℝ) (area : ℕ → ℝ) (aMin eMin : ℝ)
    (eMax : ℕ) (acc : List ℕ) (eid : ℕ) (rest : List ℕ) :
    SIMFracture.selectElements eNorm area aMin eMin eMax acc (eid :: rest) =
      if eMin < eNorm.getD eid 0 ∨ eMax ≤ acc.length then acc
      else if aMin + 1 / 10 ^ 12 < area eid then
        SIMFracture.selectElements eNorm area aMin eMin eMax (acc ++ [eid]) rest
      else SIMFracture.selectElements eNorm area aMin eMin eMax acc rest := rfl

/-- Characterization of the selection loop: the delivered selection extends
the accumulator with the area-filtered content of a prefix of the walked
list; every walked id has an indicator at or below eMin; the budget is
respected; and the walk stopped either at the end of the list, at an id
whose indicator exceeds eMin, or because the budget was reached. -/
theorem selectElements_spec (eNorm : List ℝ) (area : ℕ → ℝ) (aMin eMin : ℝ)
    (eMax : ℕ) :
    ∀ l acc, ∃ k, k ≤ l.length ∧
      SIMFracture.selectElements eNorm area aMin eMin eMax acc l =
        acc ++ (l.take k).filter
          (fun e => decide (aMin + 1 / 10 ^ 12 < area e)) ∧
      (∀ e ∈ l.take k, eNorm.getD e 0 ≤ eMin) ∧
      (acc.length ≤ eMax →
        (SIMFracture.selectElements eNorm area aMin eMin eMax acc l).length
          ≤ eMax) ∧
      (k = l.length ∨ eMin < eNorm.getD (l.getD k 0) 0 ∨
        eMax ≤
          (SIMFracture.selectElements eNorm area aMin eMin eMax acc l).length) := by
  intro l
  induction l with
  | nil =>
    intro acc
    refine ⟨0, Nat.le_refl 0, ?_, ?_, ?_, Or.inl rfl⟩
    · rw [selectElements_nil]
      simp
    · intro e he
      simp at he
    · rw [selectElements_nil]
      exact fun h => h
  | cons eid rest ih =>
    intro acc
    by_cases h1 : eMin < eNorm.getD eid 0 ∨ eMax ≤ acc.length
    · have hsel : SIMFracture.selectElements eNorm area aMin eMin eMax acc
          (eid :: rest) = acc := by
        rw [selectElements_cons, if_pos h1]
      refine ⟨0, Nat.zero_le _, ?_, ?_, ?_, ?_⟩
      · rw [hsel]; simp
      · intro e he; simp at he
      · rw [hsel]; exact fun h => h
      · rcases h1 with h | h
        · exact Or.inr (Or.inl (by simpa using h))
        · exact Or.inr (Or.inr (by rw [hsel]; exact h))
    · push_neg at h1
      obtain ⟨hemin, hbud⟩ := h1
      have h1' : ¬(eMin < eNorm.getD eid 0 ∨ eMax ≤ acc.length) := by
        push_neg
        exact ⟨hemin, hbud⟩
      by_cases h2 : aMin + 1 / 10 ^ 12 < area eid
      · have hsel : SIMFracture.selectElements eNorm area aMin eMin eMax acc
            (eid :: rest) =
            SIMFracture.selectElements eNorm area aMin eMin eMax
              (acc ++ [eid]) rest := by
          rw [selectElements_cons, if_neg h1', if_pos h2]
        obtain ⟨k, hk, heq, hall, hbudget, hstop⟩ := ih (acc ++ [eid])
        refine ⟨k + 1, by simpa using Nat.succ_le_succ hk, ?_, ?_, ?_, ?_⟩
        · rw [hsel, heq, List.take_succ_cons, List.filter_cons,
            if_pos (decide_eq_true h2)]
          simp
        · intro e he
          rw [List.take_succ_cons, List.mem_cons] at he
          rcases he with rfl | he
          · exact hemin
          · exact hall e he
        · intro _
          rw [hsel]
          apply hbudget
          rw [List.length_append, List.length_singleton]
          omega
        · rcases hstop with h | h | h
          · exact Or.inl (by simp [h])
          · exact Or.inr (Or.inl (by simpa using h))
          · exact Or.inr (Or.inr (by rw [hsel]; exact h))
      · have hsel : SIMFracture.selectElements eNorm area aMin eMin eMax acc
            (eid :: rest) =
            SIMFracture.selectElements eNorm area aMin eMin eMax acc rest := by
          rw [selectElements_cons, if_neg h1', if_neg h2]
        obtain ⟨k, hk, heq, hall, hbudget, hstop⟩ := ih acc
        refine ⟨k + 1, by simpa using Nat.succ_le_succ hk, ?_, ?_, ?_, ?_⟩
        · rw [hsel, heq, List.take_succ_cons, List.filter_cons,
            if_neg (by simpa using h2)]
        · intro e he
          rw [List.take_succ_cons, List.mem_cons] at he
          rcases he with rfl | he
          · exact hemin
          · exact hall e he
        · intro hacc
          rw [hsel]
          exact hbudget hacc
        · rcases hstop with h | h | h
          · exact Or.inl (by simp [h])
          · exact Or.inr (Or.inl (by simpa using h))
          · exact Or.inr (Or.inr (by rw [hsel]; exact h))

/-- On the missing-indicator path adaptMesh reduces to the early -1 return,
leaving everything except possibly the area floor untouched. -/
theorem adaptMesh_empty_eNorm (beta min_frac : ℝ) (nrefinements : ℤ)
    (env : AMEnv) (st : AMState) (hpch : env.pchOk = true)
    (hempty : env.eNorm.isEmpty = true) :
    SIMFracture.adaptMesh beta min_frac nrefinements env st =
      (-1, ⟨SIMFracture.adaptAMin st.aMin (env.area 0) nrefinements,
            st.sols, st.hsol⟩,
       if st.aMin ≤ 0 then
         [AMEvent.setAMin
           (SIMFracture.adaptAMin st.aMin (env.area 0) nrefinements)]
       else []) := by
  unfold SIMFracture.adaptMesh
  rw [if_neg (by simp [hpch]), if_pos hempty]

/-- C6: an adaptMesh call whose per-element refinement indicator vector is
empty returns the missing-indicator error code -1 and issues no call against
either subsystem: mesh topology, solution vectors and the snapshot buffers
are untouched (only the driver-internal area floor may be initialized). -/
theorem C6_missing_indicator (beta min_frac : ℝ) (nrefinements : ℤ)
    (env : AMEnv) (st : AMState) (hpch : env.pchOk = true)
    (hempty : env.eNorm.isEmpty = true) :
    (SIMFracture.adaptMesh beta min_frac nrefinements env st).1 = -1 ∧
    (SIMFracture.adaptMesh beta min_frac nrefinements env st).2.1.sols =
      st.sols ∧
    (SIMFracture.adaptMesh beta min_frac nrefinements env st).2.1.hsol =
      st.hsol ∧
    ∀ ev ∈ (SIMFracture.adaptMesh beta min_frac nrefinements env st).2.2,
      ev.mutatesSim = false := by
  rw [adaptMesh_empty_eNorm beta min_frac nrefinements env st hpch hempty]
  refine ⟨rfl, rfl, rfl, ?_⟩
  intro ev hev
  by_cases h : st.aMin ≤ 0
  · rw [if_pos h] at hev
    have hv : ev = AMEvent.setAMin
        (SIMFracture.adaptAMin st.aMin (env.area 0) nrefinements) := by
      simpa using hev
    rw [hv]
    rfl
  · rw [if_neg h] at hev
    simp at hev

/-- Witness for C6: a call with an empty indicator vector on the trivial
state returns -1 with no subsystem call. -/
theorem C6_missing_indicator_witness :
    (SIMFracture.adaptMesh (-1) (5 / 100) 1
      ⟨true, fun _ => 1, [], 10, [], [], [], [], true, true, id, true, true,
       true, true⟩ ⟨1, [], []⟩).1 = -1 :=
  (C6_missing_indicator (-1) (5 / 100) 1
    ⟨true, fun _ => 1, [], 10, [], [], [], [], true, true, id, true, true,
     true, true⟩ ⟨1, [], []⟩ rfl rfl).1

/-- The refinement pipeline leaves the area floor it was given unchanged on
every path. -/
theorem refinePhase_aMin (env : AMEnv) (a : ℝ) (elements : List ℕ)
    (st : AMState) (ev0 : List AMEvent) :
    (SIMFracture.refinePhase env a elements st ev0).2.1.aMin = a := by
  unfold SIMFracture.refinePhase
  by_cases h1 : env.refine1Ok = false
  · rw [if_pos h1]
  · rw [if_neg h1]
    by_cases h2 : env.refine2Ok = false
    · rw [if_pos h2]
    · rw [if_neg h2]
      by_cases h3 : env.readOk = false
      · rw [if_pos h3]
      · rw [if_neg h3]
        by_cases h4 : env.preprocessOk = false
        · rw [if_pos h4]
        · rw [if_neg h4]
          by_cases h5 : env.initOk = false
          · rw [if_pos h5]
          · rw [if_neg h5]
            by_cases h6 : env.initSysOk = false
            · rw [if_pos h6]
            · rw [if_neg h6]

/-- On every path through adaptMesh past the patch check, the stored area
floor ends up as adaptAMin of the incoming floor. -/
theorem adaptMesh_aMin (beta min_frac : ℝ) (nrefinements : ℤ) (env : AMEnv)
    (st : AMState) (hpch : env.pchOk = true) :
    (SIMFracture.adaptMesh beta min_frac nrefinements env st).2.1.aMin =
      SIMFracture.adaptAMin st.aMin (env.area 0) nrefinements := by
  unfold SIMFracture.adaptMesh
  rw [if_neg (by simp [hpch])]
  by_cases h1 : env.eNorm.isEmpty = true
  · rw [if_pos h1]
  · rw [if_neg h1]
    by_cases h2 : (SIMFracture.selectElements env.eNorm env.area
        (SIMFracture.adaptAMin st.aMin (env.area 0) nrefinements)
        (SIMFracture.adaptEMin min_frac env.gNorm env.idx.length)
        (SIMFracture.adaptEMax beta env.idx.length) [] env.idx).isEmpty = true
    · rw [if_pos h2]
    · rw [if_neg h2]
      exact refinePhase_aMin env _ _ st _

/-- A positive stored area floor is never recomputed. -/
theorem adaptAMin_pos (a v : ℝ) (n : ℤ) (h : 0 < a) :
    SIMFracture.adaptAMin a v n = a := by
  unfold SIMFracture.adaptAMin
  rw [if_neg (not_le.mpr h)]

/-- C7: the minimum element area floor is computed exactly once: on a call
that still has it unset (non-positive) it becomes the area of the finest
element (element 0 of the patch) divided by 4 to the power of the target
refinement level, and is then positive whenever that area is, so every later
call leaves it unchanged; moreover no element whose area is at or below the
floor in force is ever selected for refinement. -/
theorem C7_area_floor (beta min_frac : ℝ) (nrefinements : ℤ) (env : AMEnv)
    (st : AMState) (hpch : env.pchOk = true) :
    ((SIMFracture.adaptMesh beta min_frac nrefinements env st).2.1.aMin =
      SIMFracture.adaptAMin st.aMin (env.area 0) nrefinements) ∧
    (st.aMin ≤ 0 →
      SIMFracture.adaptAMin st.aMin (env.area 0) nrefinements =
        env.area 0 / (4 : ℝ) ^ nrefinements) ∧
    (st.aMin ≤ 0 → 0 < env.area 0 →
      0 < SIMFracture.adaptAMin st.aMin (env.area 0) nrefinements ∧
      ∀ (area2 : ℝ) (nref2 : ℤ),
        SIMFracture.adaptAMin
          (SIMFracture.adaptAMin st.aMin (env.area 0) nrefinements)
          area2 nref2 =
        SIMFracture.adaptAMin st.aMin (env.area 0) nrefinements) ∧
    (0 < st.aMin →
      SIMFracture.adaptAMin st.aMin (env.area 0) nrefinements = st.aMin) ∧
    (∀ (eMin : ℝ) (eMax : ℕ),
      ∀ e ∈ SIMFracture.selectElements env.eNorm env.area
        (SIMFracture.adaptAMin st.aMin (env.area 0) nrefinements) eMin eMax
        [] env.idx,
      ¬ env.area e ≤
        SIMFracture.adaptAMin st.aMin (env.area 0) nrefinements) := by
  have hpow : (2 : ℝ) ^ nrefinements * (2 : ℝ) ^ nrefinements =
      (4 : ℝ) ^ nrefinements := by
    rw [← mul_zpow]
    norm_num
  refine ⟨adaptMesh_aMin beta min_frac nrefinements env st hpch, ?_, ?_, ?_, ?_⟩
  · intro h
    unfold SIMFracture.adaptAMin
    rw [if_pos h, hpow]
  · intro h harea
    have hval : SIMFracture.adaptAMin st.aMin (env.area 0) nrefinements =
        env.area 0 / ((2 : ℝ) ^ nrefinements * (2 : ℝ) ^ nrefinements) := by
      unfold SIMFracture.adaptAMin
      rw [if_pos h]
    have hpos : 0 < SIMFracture.adaptAMin st.aMin (env.area 0) nrefinements := by
      rw [hval]
      apply div_pos harea
      positivity
    exact ⟨hpos, fun area2 nref2 => adaptAMin_pos _ area2 nref2 hpos⟩
  · intro h
    exact adaptAMin_pos st.aMin (env.area 0) nrefinements h
  · intro eMin eMax e he
    rcases selectElements_mem env.eNorm env.area
        (SIMFracture.adaptAMin st.aMin (env.area 0) nrefinements) eMin eMax
        env.idx [] e he with hacc | harea
    · simp at hacc
    · intro hle
      have htol : (0 : ℝ) < 1 / 10 ^ 12 := by norm_num
      linarith

/-- Witness for C7: with the floor unset, element-0 area 1 and one target
refinement level, the floor becomes 1 / 4. -/
theorem C7_area_floor_witness :
    SIMFracture.adaptAMin 0 1 1 = 1 / (4 : ℝ) ^ (1 : ℤ) := by
  have h := C7_area_floor (-1) (5 / 100) 1
    ⟨true, fun _ => 1, [], 10, [], [], [], [], true, true, id, true, true,
     true, true⟩ ⟨0, [], []⟩ rfl
  exact h.2.1 le_rfl

/-- C2: for a non-empty indicator vector walked in the sorted order idx (a
permutation of the element ids sorted ascending by indicator), the minimum
eligible indicator equals -minFraction * globalNorm / sqrt(elementCount)
when minFraction is negative and minFraction itself otherwise; the budget
equals the element count when betaPercent is negative and the size_t
truncation of elementCount * betaPercent / 100 otherwise; the selection is
the area-filtered content of a prefix of idx all of whose ids have
indicators at or below eMin, within budget, the walk stopping at the end,
at the first indicator above eMin, or at budget exhaustion; and in the
scenario betaPercent = -1, minFraction = 0.05, globalNorm = 10,
elementCount = 100 one gets eMin = 0.05, eMax = 100, and every element with
indicator above 0.05 excluded. -/
theorem C2_adaptMesh_selection (beta min_frac gNorm aMin : ℝ)
    (eNorm : List ℝ) (area : ℕ → ℝ) (idx : List ℕ)
    (hperm : idx.Perm (List.range eNorm.length))
    (hsorted : idx.Pairwise (fun i j => eNorm.getD i 0 ≤ eNorm.getD j 0)) :
    (min_frac < 0 →
      SIMFracture.adaptEMin min_frac gNorm idx.length =
        -min_frac * gNorm / Real.sqrt idx.length) ∧
    (0 ≤ min_frac →
      SIMFracture.adaptEMin min_frac gNorm idx.length = min_frac) ∧
    (beta < 0 → SIMFracture.adaptEMax beta idx.length = idx.length) ∧
    (0 ≤ beta →
      SIMFracture.adaptEMax beta idx.length =
        ⌊(idx.length : ℝ) * beta / 100⌋₊) ∧
    (∃ k, k ≤ idx.length ∧
      SIMFracture.selectElements eNorm area aMin
          (SIMFracture.adaptEMin min_frac gNorm idx.length)
          (SIMFracture.adaptEMax beta idx.length) [] idx =
        (idx.take k).filter
          (fun e => decide (aMin + 1 / 10 ^ 12 < area e)) ∧
      (∀ e ∈ idx.take k,
        eNorm.getD e 0 ≤ SIMFracture.adaptEMin min_frac gNorm idx.length) ∧
      (SIMFracture.selectElements eNorm area aMin
          (SIMFracture.adaptEMin min_frac gNorm idx.length)
          (SIMFracture.adaptEMax beta idx.length) [] idx).length ≤
        SIMFracture.adaptEMax beta idx.length ∧
      (k = idx.length ∨
        SIMFracture.adaptEMin min_frac gNorm idx.length <
          eNorm.getD (idx.getD k 0) 0 ∨
        SIMFracture.adaptEMax beta idx.length ≤
          (SIMFracture.selectElements eNorm area aMin
            (SIMFracture.adaptEMin min_frac gNorm idx.length)
            (SIMFracture.adaptEMax beta idx.length) [] idx).length)) ∧
    (beta = -1 ∧ min_frac = 5 / 100 ∧ gNorm = 10 ∧ idx.length = 100 →
      SIMFracture.adaptEMin min_frac gNorm idx.length = 5 / 100 ∧
      SIMFracture.adaptEMax beta idx.length = 100 ∧
      ∀ e ∈ SIMFracture.selectElements eNorm area aMin
          (SIMFracture.adaptEMin min_frac gNorm idx.length)
          (SIMFracture.adaptEMax beta idx.length) [] idx,
        eNorm.getD e 0 ≤ 5 / 100) := by
  have hsel : ∀ e ∈ SIMFracture.selectElements eNorm area aMin
      (SIMFracture.adaptEMin min_frac gNorm idx.length)
      (SIMFracture.adaptEMax beta idx.length) [] idx,
      eNorm.getD e 0 ≤ SIMFracture.adaptEMin min_frac gNorm idx.length := by
    obtain ⟨k, hk, heq, hall, hbud, hstop⟩ := selectElements_spec eNorm area
      aMin (SIMFracture.adaptEMin min_frac gNorm idx.length)
      (SIMFracture.adaptEMax beta idx.length) idx []
    intro e he
    rw [heq] at he
    simp only [List.nil_append] at he
    exact hall e (List.mem_of_mem_filter he)
  refine ⟨?_, ?_, ?_, ?_, ?_, ?_⟩
  · intro h
    unfold SIMFracture.adaptEMin
    rw [if_pos h]
  · intro h
    unfold SIMFracture.adaptEMin
    rw [if_neg (not_lt.mpr h)]
  · intro h
    unfold SIMFracture.adaptEMax
    rw [if_pos h]
  · intro h
    unfold SIMFracture.adaptEMax
    rw [if_neg (not_lt.mpr h)]
  · obtain ⟨k, hk, heq, hall, hbud, hstop⟩ := selectElements_spec eNorm area
      aMin (SIMFracture.adaptEMin min_frac gNorm idx.length)
      (SIMFracture.adaptEMax beta idx.length) idx []
    refine ⟨k, hk, ?_, hall, hbud (Nat.zero_le _), hstop⟩
    rw [heq, List.nil_append]
  · rintro ⟨hb, hm, hg, hn⟩
    have hEMin : SIMFracture.adaptEMin min_frac gNorm idx.length = 5 / 100 := by
      unfold SIMFracture.adaptEMin
      rw [if_neg (not_lt.mpr (by rw [hm]; norm_num)), hm]
    have hEMax : SIMFracture.adaptEMax beta idx.length = 100 := by
      unfold SIMFracture.adaptEMax
      rw [if_pos (by rw [hb]; norm_num), hn]
    refine ⟨hEMin, hEMax, ?_⟩
    intro e he
    have := hsel e he
    rw [hEMin] at this
    exact this

/-- Witness for C2: a single element with indicator 0 in sorted order. -/
theorem C2_adaptMesh_selection_witness :
    SIMFracture.adaptEMax (-1) ([0] : List ℕ).length = ([0] : List ℕ).length := by
  have h := C2_adaptMesh_selection (-1) (5 / 100) 10 1 [0] (fun _ => 1) [0]
    (by decide) (by simp)
  exact h.2.2.1 (by norm_num)

/-- With a usable patch, a non-empty indicator vector and a non-empty
selection, adaptMesh is the refinement pipeline applied to the buffered
state. -/
theorem adaptMesh_refine (beta min_frac : ℝ) (nrefinements : ℤ)
    (env : AMEnv) (st : AMState) (hpch : env.pchOk = true)
    (hne : env.eNorm.isEmpty = false)
    (hsel : (SIMFracture.selectElements env.eNorm env.area
      (SIMFracture.adaptAMin st.aMin (env.area 0) nrefinements)
      (SIMFracture.adaptEMin min_frac env.gNorm env.idx.length)
      (SIMFracture.adaptEMax beta env.idx.length) [] env.idx).isEmpty =
      false) :
    SIMFracture.adaptMesh beta min_frac nrefinements env st =
      SIMFracture.refinePhase env
        (SIMFracture.adaptAMin st.aMin (env.area 0) nrefinements)
        (SIMFracture.selectElements env.eNorm env.area
          (SIMFracture.adaptAMin st.aMin (env.area 0) nrefinements)
          (SIMFracture.adaptEMin min_frac env.gNorm env.idx.length)
          (SIMFracture.adaptEMax beta env.idx.length) [] env.idx)
        st
        (if st.aMin ≤ 0 then
           [AMEvent.setAMin
             (SIMFracture.adaptAMin st.aMin (env.area 0) nrefinements)]
         else []) := by
  unfold SIMFracture.adaptMesh
  rw [if_neg (by simp [hpch]), if_neg (by simp [hne]), if_neg (by simp [hsel])]

/-- With every pipeline stage succeeding, the refinement pipeline returns
the selection size, installs the transferred buffer, and issues the
refinement, re-initialization and restoration calls in order. -/
theorem refinePhase_all_ok (env : AMEnv) (a : ℝ) (elements : List ℕ)
    (st : AMState) (ev0 : List AMEvent)
    (h1 : env.refine1Ok = true) (h2 : env.refine2Ok = true)
    (h3 : env.readOk = true) (h4 : env.preprocessOk = true)
    (h5 : env.initOk = true) (h6 : env.initSysOk = true) :
    SIMFracture.refinePhase env a elements st ev0 =
      ((elements.length : ℤ), ⟨a, env.refineSols st.sols, st.hsol⟩,
       ev0 ++ [AMEvent.refine1 elements st.sols, AMEvent.refine2 elements,
               AMEvent.clearProps, AMEvent.readInput, AMEvent.preprocessCall,
               AMEvent.initCall, AMEvent.initSys] ++
       (if (env.refineSols st.sols).isEmpty = true then []
        else [AMEvent.setSolutions (env.refineSols st.sols),
              AMEvent.setSolution ((env.refineSols st.sols).getLastD [])]) ++
       (if st.hsol.isEmpty = true then []
        else [AMEvent.transferHist st.hsol])) := by
  unfold SIMFracture.refinePhase
  rw [if_neg (by simp [h1]), if_neg (by simp [h2]), if_neg (by simp [h3]),
    if_neg (by simp [h4]), if_neg (by simp [h5]), if_neg (by simp [h6])]

/-- C5 as amended: the snapshot of the current solution state is taken by
the driver's separate saveState call, not by adaptMesh itself.  After
saveState, the buffer holds all Field A solution histories with the current
Field B solution appended, plus Field B's history field; adaptMesh then
passes that buffer to the refinement call, and after the re-initialization
calls restores the (mesh-transferred) buffered state onto the new mesh:
the setSolutions/setSolution/transferHist events follow the
initCall/initSys events in the trace, carrying the buffered values. -/
theorem C5_snapshot_restore (beta min_frac : ℝ) (nrefinements : ℤ)
    (env : AMEnv) (st : AMState)
    (hpch : env.pchOk = true) (hne : env.eNorm.isEmpty = false)
    (h1 : env.refine1Ok = true) (h2 : env.refine2Ok = true)
    (h3 : env.readOk = true) (h4 : env.preprocessOk = true)
    (h5 : env.initOk = true) (h6 : env.initSysOk = true)
    (hH : env.curH.isEmpty = false)
    (hRS : (env.refineSols (env.cur1 ++ [env.cur2])).isEmpty = false)
    (hsel : (SIMFracture.selectElements env.eNorm env.area
      (SIMFracture.adaptAMin st.aMin (env.area 0) nrefinements)
      (SIMFracture.adaptEMin min_frac env.gNorm env.idx.length)
      (SIMFracture.adaptEMax beta env.idx.length) [] env.idx).isEmpty =
      false) :
    (SIMFracture.saveState env st).sols = env.cur1 ++ [env.cur2] ∧
    (SIMFracture.saveState env st).hsol = env.curH ∧
    SIMFracture.adaptMesh beta min_frac nrefinements env
        (SIMFracture.saveState env st) =
      (((SIMFracture.selectElements env.eNorm env.area
          (SIMFracture.adaptAMin st.aMin (env.area 0) nrefinements)
          (SIMFracture.adaptEMin min_frac env.gNorm env.idx.length)
          (SIMFracture.adaptEMax beta env.idx.length) [] env.idx).length : ℤ),
       ⟨SIMFracture.adaptAMin st.aMin (env.area 0) nrefinements,
        env.refineSols (env.cur1 ++ [env.cur2]), env.curH⟩,
       (if st.aMin ≤ 0 then
          [AMEvent.setAMin
            (SIMFracture.adaptAMin st.aMin (env.area 0) nrefinements)]
        else []) ++
       [AMEvent.refine1
          (SIMFracture.selectElements env.eNorm env.area
            (SIMFracture.adaptAMin st.aMin (env.area 0) nrefinements)
            (SIMFracture.adaptEMin min_frac env.gNorm env.idx.length)
            (SIMFracture.adaptEMax beta env.idx.length) [] env.idx)
          (env.cur1 ++ [env.cur2]),
        AMEvent.refine2
          (SIMFracture.selectElements env.eNorm env.area
            (SIMFracture.adaptAMin st.aMin (env.area 0) nrefinements)
            (SIMFracture.adaptEMin min_frac env.gNorm env.idx.length)
            (SIMFracture.adaptEMax beta env.idx.length) [] env.idx),
        AMEvent.clearProps, AMEvent.readInput, AMEvent.preprocessCall,
        AMEvent.initCall, AMEvent.initSys] ++
       [AMEvent.setSolutions (env.refineSols (env.cur1 ++ [env.cur2])),
        AMEvent.setSolution
          ((env.refineSols (env.cur1 ++ [env.cur2])).getLastD [])] ++
       [AMEvent.transferHist env.curH]) := by
  refine ⟨rfl, rfl, ?_⟩
  rw [adaptMesh_refine beta min_frac nrefinements env
    (SIMFracture.saveState env st) hpch hne hsel]
  rw [refinePhase_all_ok env _ _ _ _ h1 h2 h3 h4 h5 h6]
  rw [show (SIMFracture.saveState env st).sols = env.cur1 ++ [env.cur2]
      from rfl,
    show (SIMFracture.saveState env st).hsol = env.curH from rfl,
    show (SIMFracture.saveState env st).aMin = st.aMin from rfl]
  rw [if_neg (show ¬((env.refineSols (env.cur1 ++ [env.cur2])).isEmpty = true)
      by simp [hRS]),
    if_neg (show ¬(env.curH.isEmpty = true) by simp [hH])]

/-- C5 counterexample: adaptMesh itself does not snapshot the current
solution state before refining.  At a state whose snapshot buffer holds the
stale value [[5]] while the subsystems' current state is [[7]] with phase
solution [8], adaptMesh selects element 0, passes the stale buffer [[5]]
(not the current snapshot [[7], [8]]) to the refinement call, and restores
that stale buffer afterwards: the claim that adaptMesh snapshots the
current state into the buffer before refining is false at this input. -/
theorem C5_counterexample :
    (SIMFracture.adaptMesh (-1) 1 1
      ⟨true, fun _ => 1, [0], 0, [0], [[7]], [8], [], true, true, id, true,
       true, true, true⟩ ⟨1 / 2, [[5]], []⟩).1 = 1 ∧
    (SIMFracture.adaptMesh (-1) 1 1
      ⟨true, fun _ => 1, [0], 0, [0], [[7]], [8], [], true, true, id, true,
       true, true, true⟩ ⟨1 / 2, [[5]], []⟩).2.2 =
      [AMEvent.refine1 [0] [[5]], AMEvent.refine2 [0], AMEvent.clearProps,
       AMEvent.readInput, AMEvent.preprocessCall, AMEvent.initCall,
       AMEvent.initSys, AMEvent.setSolutions [[5]],
       AMEvent.setSolution [5]] ∧
    (SIMFracture.adaptMesh (-1) 1 1
      ⟨true, fun _ => 1, [0], 0, [0], [[7]], [8], [], true, true, id, true,
       true, true, true⟩ ⟨1 / 2, [[5]], []⟩).2.1.sols = [[5]] ∧
    (⟨true, fun _ => 1, [0], 0, [0], [[7]], [8], [], true, true, id, true,
      true, true, true⟩ : AMEnv).cur1 ++
      [(⟨true, fun _ => 1, [0], 0, [0], [[7]], [8], [], true, true, id, true,
        true, true, true⟩ : AMEnv).cur2] = [[7], [8]] ∧
    ([[5]] : List (List ℝ)) ≠ [[7], [8]] := by
  have hA : SIMFracture.adaptAMin (1 / 2 : ℝ) 1 1 = 1 / 2 :=
    adaptAMin_pos _ _ _ (by norm_num)
  refine ⟨?_, ?_, ?_, rfl, by norm_num⟩ <;>
    norm_num [SIMFracture.adaptMesh, SIMFracture.refinePhase, hA,
      SIMFracture.adaptEMin, SIMFracture.adaptEMax, SIMFracture.selectElements,
      List.getD, List.getLastD]

/-- Witness for C5 as amended: after saveState the buffer holds the current
state [[7], [8]], and the successful adaptMesh call restores exactly that
buffer onto the new mesh. -/
theorem C5_snapshot_restore_witness :
    (SIMFracture.saveState
      ⟨true, fun _ => 1, [0], 0, [0], [[7]], [8], [3], true, true, id, true,
       true, true, true⟩ ⟨1 / 2, [[5]], []⟩).sols = [[7], [8]] ∧
    (SIMFracture.adaptMesh (-1) 1 1
      ⟨true, fun _ => 1, [0], 0, [0], [[7]], [8], [3], true, true, id, true,
       true, true, true⟩
      (SIMFracture.saveState
        ⟨true, fun _ => 1, [0], 0, [0], [[7]], [8], [3], true, true, id, true,
         true, true, true⟩ ⟨1 / 2, [[5]], []⟩)).2.1.sols = [[7], [8]] := by
  have hA : SIMFracture.adaptAMin (1 / 2 : ℝ) 1 1 = 1 / 2 :=
    adaptAMin_pos _ _ _ (by norm_num)
  have h := C5_snapshot_restore (-1) 1 1
    ⟨true, fun _ => 1, [0], 0, [0], [[7]], [8], [3], true, true, id, true,
     true, true, true⟩ ⟨1 / 2, [[5]], []⟩
    rfl rfl rfl rfl rfl rfl rfl rfl rfl rfl
    (by norm_num [SIMFracture.adaptEMin, SIMFracture.adaptEMax, hA,
      SIMFracture.selectElements, List.getD])
  refine ⟨h.1, ?_⟩
  rw [h.2.2]
  rfl
